import Mathlib

/-!
# Verification of the blizzardapi3 endpoint-registry core

This file gives a shallow embedding of the pattern-resolution logic of
`scripts/generate_stubs.py` (`get_endpoint_params`), of the validation
exceptions of `blizzardapi3/exceptions/validation.py`, and — for the parts
of the core whose implementation modules are not present in the source
tree (token manager, request executor, dynamic facade) — models written
from the specification.  Theorems at the end settle the behavioural claims
about the system.
-/

namespace Blizzardapi3

/-- An endpoint descriptor as read from a YAML config: the dictionary keys
used by `get_endpoint_params` in `scripts/generate_stubs.py`.  A field is
`none` when the key is absent from the dictionary. -/
structure EndpointDescriptor where
  method_name : String
  description : String := ""
  params : Option (List String) := none
  pattern : Option String := none
  param_name : Option String := none
  accepts_kwargs : Option Bool := none
  deriving Repr, DecidableEq

/-- A pattern template as read from a YAML config (`pattern_templates`
entries used by `get_endpoint_params`). -/
structure PatternTemplate where
  path_template : Option String := none
  params : Option (List String) := none
  accepts_kwargs : Option Bool := none
  deriving Repr, DecidableEq

/-- Python truthiness of `endpoint.get(key)` for a list-valued key:
present and non-empty. -/
def truthy_list (o : Option (List String)) : Bool :=
  match o with
  | some l => !l.isEmpty
  | none => false

/-- Python truthiness of `endpoint.get(key)` for a string-valued key:
present and non-empty. -/
def truthy_str (o : Option String) : Bool :=
  match o with
  | some s => s != ""
  | none => false

/-- Dictionary lookup `patterns.get(name, {})` with the empty dictionary
as default. -/
def lookup_pattern (patterns : List (String × PatternTemplate)) (name : String) :
    PatternTemplate :=
  match patterns.lookup name with
  | some p => p
  | none => {}

/-- The base parameter sequence chosen by `get_endpoint_params`
(`scripts/generate_stubs.py` lines 84-90): the endpoint's own `params`
when truthy, else the referenced pattern's `params` (defaulting to
`["region", "locale"]`) when the endpoint names a pattern and the
template map is non-empty, else `["region", "locale"]`. -/
def base_params (e : EndpointDescriptor)
    (patterns : List (String × PatternTemplate)) : List String :=
  if truthy_list e.params then
    e.params.getD []
  else if truthy_str e.pattern && !patterns.isEmpty then
    ((lookup_pattern patterns (e.pattern.getD "")).params).getD ["region", "locale"]
  else
    ["region", "locale"]

/-- Embedding of `get_endpoint_params` (`scripts/generate_stubs.py`
lines 81-103): choose the base parameter sequence, substitute the
`"id"` placeholder by `param_name` when both are present (in-place, at
`params.index("id")`), and resolve the `accepts_kwargs` flag (endpoint's
own value, falling through to the referenced pattern's value when the
endpoint's value is falsy). -/
def get_endpoint_params (e : EndpointDescriptor)
    (patterns : List (String × PatternTemplate)) : List String × Bool :=
  let params := base_params e patterns
  let params :=
    if truthy_str e.param_name && params.contains "id" then
      params.set (params.indexOf "id") (e.param_name.getD "")
    else params
  let ak := e.accepts_kwargs.getD false
  let ak :=
    if !ak && (truthy_str e.pattern && !patterns.isEmpty) then
      (lookup_pattern patterns (e.pattern.getD "")).accepts_kwargs.getD false
    else ak
  (params, ak)

example :
    get_endpoint_params
      { method_name := "get_achievement", pattern := some "get_by_id",
        param_name := some "achievement_id" }
      [("get_by_id",
        { path_template := some "/data/wow/{resource}/{id}",
          params := some ["region", "locale", "id"] })] =
    (["region", "locale", "achievement_id"], false) := by
  decide

example :
    get_endpoint_params
      { method_name := "search_decor", pattern := some "search",
        accepts_kwargs := some false }
      [("search",
        { path_template := some "/data/wow/search/{resource}",
          params := some ["region", "locale"], accepts_kwargs := some true })] =
    (["region", "locale"], true) := by
  decide

example :
    get_endpoint_params { method_name := "orphan" } [] =
    (["region", "locale"], false) := by
  decide

/-- The error taxonomy of `blizzardapi3/exceptions` (the validation errors
are embedded from `exceptions/validation.py`; the request errors carry the
payload fields named by the spec's taxonomy table).  `missingParameter`
carries `required_params`, the list of all required parameters;
`rateLimitError` carries the optional `retry_after` value. -/
inductive ApiError where
  | missingParameter (required_params : List String)
  | invalidRegion (valid_regions : List String)
  | invalidLocale (valid_locales : List String)
  | tokenError
  | badRequestError
  | forbiddenError
  | notFoundError
  | rateLimitError (retry_after : Option Nat)
  | serverError
  deriving Repr, DecidableEq

/-- An HTTP response as seen by the request executor: a status code, the
optional retry-after header value, and a decoded body. -/
structure HttpResponse where
  status : Nat
  retry_after : Option Nat := none
  body : String := ""
  deriving Repr, DecidableEq

/-- Result of an executed request: a decoded payload or a classified
error. -/
inductive ExecResult where
  | ok (body : String)
  | err (e : ApiError)
  deriving Repr, DecidableEq

/-- Outcome of running the executor: the classified result, the number of
HTTP attempts issued, and the number of forced token refreshes. -/
structure ExecOutcome where
  result : ExecResult
  attempts : Nat
  refreshes : Nat
  deriving Repr, DecidableEq

/-- Modelled from the spec: the request executor's retry loop (the
`core/executor.py` module is not present under the source tree; this
follows spec §4.4).  The backend is a function from attempt index to
response.  2xx returns the decoded body; 401 forces one token refresh and
retries exactly once, a second 401 surfacing `TokenError`; 429 surfaces
`RateLimitError` with the header's retry-after value and no automatic
retry; 404 surfaces `NotFoundError`; other 4xx surface
`ForbiddenError`/`BadRequestError`; 5xx retries up to the bounded
`retriesLeft` budget and then surfaces `ServerError`.
`bump_refresh` records that one forced token refresh happened before the
wrapped outcome. -/
def bump_refresh (o : ExecOutcome) : ExecOutcome :=
  ⟨o.result, o.attempts, o.refreshes + 1⟩

def execGo (responses : Nat → HttpResponse) (attempt : Nat) (refreshed : Bool)
    (retriesLeft : Nat) : ExecOutcome :=
  if 200 ≤ (responses attempt).status ∧ (responses attempt).status < 300 then
    ⟨.ok (responses attempt).body, attempt + 1, 0⟩
  else if (responses attempt).status = 401 then
    if refreshed then
      ⟨.err .tokenError, attempt + 1, 0⟩
    else
      bump_refresh (execGo responses (attempt + 1) true retriesLeft)
  else if (responses attempt).status = 429 then
    ⟨.err (.rateLimitError (responses attempt).retry_after), attempt + 1, 0⟩
  else if (responses attempt).status = 404 then
    ⟨.err .notFoundError, attempt + 1, 0⟩
  else if (responses attempt).status = 403 then
    ⟨.err .forbiddenError, attempt + 1, 0⟩
  else if (responses attempt).status < 500 then
    ⟨.err .badRequestError, attempt + 1, 0⟩
  else
    match retriesLeft with
    | 0 => ⟨.err .serverError, attempt + 1, 0⟩
    | n + 1 => execGo responses (attempt + 1) refreshed n
termination_by (retriesLeft, if refreshed then 0 else 1)
decreasing_by
  · simp_all
    exact Prod.Lex.right _ (by omega)
  · apply Prod.Lex.left
    omega

/-- Modelled from the spec: `execute` starts the executor loop with a
fresh attempt counter, no refresh performed yet, and the configured
bounded retry budget for transient failures. -/
def execute (responses : Nat → HttpResponse) (maxRetries : Nat) : ExecOutcome :=
  execGo responses 0 false maxRetries

/-- Modelled from the spec: the names of `required_params` (other than
`region` and `locale`) that are absent from the call's arguments or bound
to an empty value (facade module not present under the source tree;
follows spec §4.2's validation stage). -/
def missing_params (required : List String) (args : List (String × String)) :
    List String :=
  required.filter (fun p =>
    p != "region" && p != "locale" &&
      (match args.lookup p with
       | none => true
       | some v => v == ""))

/-- Modelled from the spec: the validation a generated operation performs
before any network access; a missing required parameter raises
`MissingParameterError` carrying the full required-parameter list. -/
def validate_params (required : List String) (args : List (String × String)) :
    Option ApiError :=
  if (missing_params required args).isEmpty then none
  else some (.missingParameter required)

/-- Modelled from the spec: a generated (sync) operation: validate the
parameters first and, only on success, delegate to the request executor.
Returns the classified result together with the number of network
attempts issued (zero when validation fails). -/
def operation_call (required : List String) (args : List (String × String))
    (responses : Nat → HttpResponse) (maxRetries : Nat) : ExecResult × Nat :=
  match validate_params required args with
  | some e => (.err e, 0)
  | none =>
    let o := execute responses maxRetries
    (o.result, o.attempts)

/-- Modelled from the spec: a cooperative (non-blocking) computation with
explicit suspension nodes; suspension occurs exactly at network I/O. -/
inductive AsyncComp (α : Type) where
  | ret (a : α)
  | suspend (k : Unit → AsyncComp α)

/-- Force a cooperative computation to completion. -/
def AsyncComp.run {α : Type} : AsyncComp α → α
  | .ret a => a
  | .suspend k => (k ()).run

/-- Modelled from the spec: the async variant of a generated operation:
validation is synchronous (no suspension point), token acquisition and
the HTTP round trip are suspension points, and the validation and
classification logic is shared with the sync variant (spec §9's shared
pure logic with two thin transport adapters). -/
def operation_call_async (required : List String)
    (args : List (String × String)) (responses : Nat → HttpResponse)
    (maxRetries : Nat) : AsyncComp (ExecResult × Nat) :=
  match validate_params required args with
  | some e => .ret (.err e, 0)
  | none =>
    .suspend (fun _ =>
      .suspend (fun _ =>
        let o := execute responses maxRetries
        .ret (o.result, o.attempts)))

/-- An OAuth2 access token as cached by the token manager: opaque token
string and absolute expiry timestamp. -/
structure Token where
  access_token : String
  expires_at : Nat
  deriving Repr, DecidableEq

/-- Modelled from the spec: what the authorization server answers to the
single in-flight token request — either a token or an authentication
failure carrying the server's error detail (spec §4.3: authentication
failures raise `TokenError`; no retry inside the token manager). -/
inductive FetchOutcome where
  | token (t : Token)
  | failure (err : String)
  deriving Repr, DecidableEq

/-- What one `get_token` caller receives: a token string, or the
`TokenError` detail of the failed refresh it shared. -/
inductive CallerResult where
  | token (tok : String)
  | failed (err : String)
  deriving Repr, DecidableEq

/-- The result a flight's resolution hands to every sharer: the token's
access string on success, the failure detail otherwise. -/
def outcome_result : FetchOutcome → CallerResult
  | .token t => .token t.access_token
  | .failure e => .failed e

/-- The phase a caller of `get_token` is in: not yet entered the critical
section; parked awaiting the in-flight refresh's shared future; holding
the single in-flight refresh; or finished with that refresh's result. -/
inductive CallerPhase where
  | start
  | waiting
  | fetching
  | done (r : CallerResult)
  deriving Repr, DecidableEq

/-- Whether a caller has finished. -/
def CallerPhase.isDone : CallerPhase → Bool
  | .done _ => true
  | _ => false

/-- Resolution of the shared in-flight future wakes a parked waiter with
the flight's result and leaves every other phase alone. -/
def wake (o : FetchOutcome) : CallerPhase → CallerPhase
  | .waiting => .done (outcome_result o)
  | ph => ph

/-- Deliver the resolved flight's result to every parked waiter. -/
def deliver (o : FetchOutcome) (l : List CallerPhase) : List CallerPhase :=
  l.map (wake o)

/-- Modelled from the spec: the token manager's shared state for one cache
key (credential identity, region) — `core/auth.py` is not present under
the source tree; this follows spec §4.3 and §5.  `cache` is the cached
token, `inflight` records whether a refresh holds the single-flight slot,
`network_calls` counts token-endpoint round trips, `server` is the answer
(token or failure) the authorization server gives to a refresh, and
`callers` are the concurrent `get_token` callers (all at the same
instant `now`). -/
structure TMSys where
  now : Nat
  safety_margin : Nat
  cache : Option Token
  inflight : Bool
  network_calls : Nat
  server : FetchOutcome
  callers : List CallerPhase
  deriving Repr, DecidableEq

/-- Modelled from the spec: a cached token is valid when
`now < expires_at - safety_margin` (written additively to avoid truncated
subtraction: `now + safety_margin < expires_at`). -/
def cache_valid (s : TMSys) : Bool :=
  match s.cache with
  | some t => s.now + s.safety_margin < t.expires_at
  | none => false

/-- The access token of the cached entry (only meaningful when a cache
entry exists). -/
def cached_token (s : TMSys) : String :=
  match s.cache with
  | some t => t.access_token
  | none => ""

/-- Modelled from the spec: one atomic scheduler step of caller `i`.  The
per-key mutex serializes the check-and-act critical sections, so each is
one step: a starting caller returns the cached token when it is valid,
parks on the shared in-flight future when a refresh is in flight, and
otherwise claims the single-flight slot and issues the one network
request.  The fetching caller's step resolves that shared future with
the server's answer: on success the token is stored in the cache, on
failure the cache is left as it was, and in both cases the slot is
released and every parked waiter receives the flight's result (a waiter
awaits the future and only ever reads the one result fixed at
resolution, so resumption is part of the resolution step; a parked
caller never issues its own request).  Steps on parked, finished or
out-of-range callers are no-ops. -/
def tm_step (s : TMSys) (i : Nat) : TMSys :=
  match s.callers[i]? with
  | none => s
  | some ph =>
    match ph with
    | .start =>
      if cache_valid s then
        { s with callers := s.callers.set i (.done (.token (cached_token s))) }
      else if s.inflight then
        { s with callers := s.callers.set i .waiting }
      else
        { s with inflight := true, network_calls := s.network_calls + 1,
                 callers := s.callers.set i .fetching }
    | .waiting => s
    | .fetching =>
      { s with
        cache := match s.server with
                 | .token t => some t
                 | .failure _ => s.cache,
        inflight := false,
        callers := (deliver s.server s.callers).set i
          (.done (outcome_result s.server)) }
    | .done _ => s

/-- Run the token-manager system under a schedule (a sequence of caller
indices). -/
def tm_run (s : TMSys) : List Nat → TMSys
  | [] => s
  | i :: rest => tm_run (tm_step s i) rest

/-- A configuration document, one per (game, api-family): the resolved
shape described in spec §3/§6 (`api_type`, `version`, named pattern
templates, ordered endpoint descriptors). -/
structure Config where
  game : String
  api_type : String
  version : String
  pattern_templates : List (String × PatternTemplate)
  endpoints : List EndpointDescriptor
  deriving Repr, DecidableEq

/-- Modelled from the spec: the `wow`/`game_data` configuration document
(the YAML config data is not present under the source tree; this is
reconstructed from the spec and from `tests/unit/test_registry.py`:
version `"3.0"`, pattern templates `simple_index`, `get_by_id` (path
`/data/wow/{resource}/{id}`, params region/locale/id) and `search`
(accepts kwargs), endpoints `get_achievement`, `get_decor`,
`search_decor`). -/
def wow_game_data : Config where
  game := "wow"
  api_type := "game_data"
  version := "3.0"
  pattern_templates :=
    [("simple_index",
      { path_template := some "/data/wow/{resource}/index",
        params := some ["region", "locale"] }),
     ("get_by_id",
      { path_template := some "/data/wow/{resource}/{id}",
        params := some ["region", "locale", "id"] }),
     ("search",
      { path_template := some "/data/wow/search/{resource}",
        params := some ["region", "locale"], accepts_kwargs := some true })]
  endpoints :=
    [{ method_name := "get_achievement",
       description := "Get an achievement by ID",
       pattern := some "get_by_id", param_name := some "achievement_id" },
     { method_name := "get_decor",
       description := "Get a decor item by ID",
       pattern := some "get_by_id", param_name := some "decor_id" },
     { method_name := "search_decor",
       description := "Search decor items",
       pattern := some "search" }]

/-- Modelled from the spec: the configuration documents loaded by the
registry that this development reasons about. -/
def loaded_configs : List Config := [wow_game_data]

/-- C1: for every endpoint descriptor that declares a (truthy) `param_name`
substitution and whose base parameter sequence contains an entry named
`"id"`, pattern resolution replaces exactly that `"id"` entry (the first
occurrence, at `params.index("id")`) with the substitution name at the
same index, leaving every other entry and the sequence length
unchanged. -/
theorem param_name_substitution_replaces_id_in_place
    (e : EndpointDescriptor) (patterns : List (String × PatternTemplate))
    (s : String) (hname : e.param_name = some s) (hs : s ≠ "")
    (hid : "id" ∈ base_params e patterns) :
    ∃ i, i < (base_params e patterns).length ∧
      (base_params e patterns)[i]? = some "id" ∧
      (get_endpoint_params e patterns).1.length = (base_params e patterns).length ∧
      (get_endpoint_params e patterns).1[i]? = some s ∧
      ∀ j, j ≠ i →
        (get_endpoint_params e patterns).1[j]? = (base_params e patterns)[j]? := by
  have hres : (get_endpoint_params e patterns).1 =
      (base_params e patterns).set ((base_params e patterns).indexOf "id") s := by
    unfold get_endpoint_params
    simp [hname, truthy_str, bne_iff_ne, hs, hid]
  have hlt : (base_params e patterns).indexOf "id" < (base_params e patterns).length :=
    List.indexOf_lt_length.2 hid
  refine ⟨(base_params e patterns).indexOf "id", hlt, List.getElem?_indexOf hid,
    ?_, ?_, ?_⟩
  · rw [hres, List.length_set]
  · rw [hres, List.getElem?_set_eq_of_lt _ hlt]
  · intro j hj
    rw [hres, List.getElem?_set_ne (Ne.symm hj)]

/-- Witness for C1: the `get_achievement` descriptor with the `get_by_id`
pattern and substitution `achievement_id`. -/
theorem param_name_substitution_replaces_id_in_place_witness :
    ∃ i, i < (base_params
        { method_name := "get_achievement", pattern := some "get_by_id",
          param_name := some "achievement_id" }
        wow_game_data.pattern_templates).length ∧
      (base_params
        { method_name := "get_achievement", pattern := some "get_by_id",
          param_name := some "achievement_id" }
        wow_game_data.pattern_templates)[i]? = some "id" ∧
      (get_endpoint_params
        { method_name := "get_achievement", pattern := some "get_by_id",
          param_name := some "achievement_id" }
        wow_game_data.pattern_templates).1.length = (base_params
        { method_name := "get_achievement", pattern := some "get_by_id",
          param_name := some "achievement_id" }
        wow_game_data.pattern_templates).length ∧
      (get_endpoint_params
        { method_name := "get_achievement", pattern := some "get_by_id",
          param_name := some "achievement_id" }
        wow_game_data.pattern_templates).1[i]? = some "achievement_id" ∧
      ∀ j, j ≠ i →
        (get_endpoint_params
          { method_name := "get_achievement", pattern := some "get_by_id",
            param_name := some "achievement_id" }
          wow_game_data.pattern_templates).1[j]? = (base_params
          { method_name := "get_achievement", pattern := some "get_by_id",
            param_name := some "achievement_id" }
          wow_game_data.pattern_templates)[j]? :=
  param_name_substitution_replaces_id_in_place
    { method_name := "get_achievement", pattern := some "get_by_id",
      param_name := some "achievement_id" }
    wow_game_data.pattern_templates "achievement_id" rfl (by decide) (by decide)

/-- C10: for every endpoint descriptor that sets a `param_name`
substitution but whose base parameter sequence contains no entry named
`"id"`, pattern resolution returns the base sequence unchanged — the
substitution is silently skipped (the resolver is a total function here,
exactly as the source's `get_endpoint_params` raises nothing on this
path). -/
theorem param_name_substitution_skipped_without_id
    (e : EndpointDescriptor) (patterns : List (String × PatternTemplate))
    (s : String) (_hname : e.param_name = some s)
    (hid : "id" ∉ base_params e patterns) :
    (get_endpoint_params e patterns).1 = base_params e patterns := by
  unfold get_endpoint_params
  simp [hid]

/-- Witness for C10: a descriptor with substitution `achievement_id` over
the `search` pattern, whose parameter list has no `"id"` entry. -/
theorem param_name_substitution_skipped_without_id_witness :
    (get_endpoint_params
      { method_name := "search_decor", pattern := some "search",
        param_name := some "achievement_id" }
      wow_game_data.pattern_templates).1 = base_params
      { method_name := "search_decor", pattern := some "search",
        param_name := some "achievement_id" }
      wow_game_data.pattern_templates :=
  param_name_substitution_skipped_without_id
    { method_name := "search_decor", pattern := some "search",
      param_name := some "achievement_id" }
    wow_game_data.pattern_templates "achievement_id" rfl (by decide)

/-- C2 counterexample: a descriptor that explicitly sets
`accepts_kwargs: false` while referencing a pattern whose
`accepts_kwargs` is `true` resolves to `true` — the descriptor's explicit
`false` does not win, contrary to the claim.  (In the source,
`endpoint.get("accepts_kwargs", False)` is falsy for an explicit `false`,
so the code falls through to the pattern's value.) -/
theorem accepts_kwargs_explicit_false_overridden :
    ({ method_name := "search_decor", pattern := some "search",
       accepts_kwargs := some false } : EndpointDescriptor).accepts_kwargs =
      some false ∧
    (get_endpoint_params
      { method_name := "search_decor", pattern := some "search",
        accepts_kwargs := some false }
      [("search",
        { params := some ["region", "locale"],
          accepts_kwargs := some true })]).2 = true := by
  decide

/-- C2 amended: the resolved `accepts_kwargs` flag is the descriptor's own
value whenever that value is `true`; whenever the descriptor's value is
falsy (absent or an explicit `false`), the flag is inherited from the
referenced pattern template (when the descriptor names a pattern and the
template map is non-empty, defaulting to `false` for an absent template or
flag), and it is `false` otherwise. -/
theorem accepts_kwargs_resolution_formula
    (e : EndpointDescriptor) (patterns : List (String × PatternTemplate)) :
    (get_endpoint_params e patterns).2 =
      (e.accepts_kwargs.getD false ||
        (truthy_str e.pattern && !patterns.isEmpty &&
          (lookup_pattern patterns (e.pattern.getD "")).accepts_kwargs.getD false)) := by
  unfold get_endpoint_params
  cases h : e.accepts_kwargs.getD false <;> cases patterns <;> simp [h]

/-- C8 counterexample: a descriptor with no pattern reference, no own
parameters (and the source's resolver has no error channel at all at this
point) resolves to the default base sequence `["region", "locale"]`
rather than failing with `ConfigError` — the claimed failure does not
occur; a default resolved pattern is produced silently. -/
theorem unresolved_descriptor_yields_default_not_error :
    get_endpoint_params { method_name := "orphan_endpoint" } [] =
      (["region", "locale"], false) := by
  decide

/-- C8 amended: for every endpoint descriptor with no (truthy) own
`params` and no usable pattern reference, pattern resolution succeeds and
silently produces the default resolved parameter sequence
`["region", "locale"]`, with `accepts_kwargs` taken from the descriptor
alone (false when unset); no `ConfigError` is raised (the source resolver
is total on this path). -/
theorem unresolved_descriptor_resolves_to_default
    (e : EndpointDescriptor) (patterns : List (String × PatternTemplate))
    (hp : truthy_list e.params = false)
    (hpat : (truthy_str e.pattern && !patterns.isEmpty) = false) :
    get_endpoint_params e patterns =
      (["region", "locale"], e.accepts_kwargs.getD false) := by
  have hbase : base_params e patterns = ["region", "locale"] := by
    unfold base_params
    simp [hp, hpat]
  unfold get_endpoint_params
  rw [hbase]
  simp [hpat]

/-- Witness for C8's amended claim: the bare `orphan_endpoint` descriptor
with an empty template map. -/
theorem unresolved_descriptor_resolves_to_default_witness :
    get_endpoint_params { method_name := "orphan_endpoint" } [] =
      (["region", "locale"],
        ({ method_name := "orphan_endpoint" } :
          EndpointDescriptor).accepts_kwargs.getD false) :=
  unresolved_descriptor_resolves_to_default
    { method_name := "orphan_endpoint" } [] (by decide) (by decide)

/-- C4: for every loaded configuration and every endpoint descriptor in
it, the resolved required-parameter sequence contains `"region"` (and so
is never empty), and the descriptor's `method_name` is unique within the
configuration. -/
theorem loaded_configs_region_and_unique_method_names
    (c : Config) (hc : c ∈ loaded_configs) :
    (∀ e ∈ c.endpoints,
      "region" ∈ (get_endpoint_params e c.pattern_templates).1 ∧
      (get_endpoint_params e c.pattern_templates).1 ≠ []) ∧
    (c.endpoints.map (fun e => e.method_name)).Nodup := by
  simp only [loaded_configs, List.mem_singleton] at hc
  subst hc
  decide

/-- Witness for C4: the modelled `wow`/`game_data` configuration. -/
theorem loaded_configs_region_and_unique_method_names_witness :
    (∀ e ∈ wow_game_data.endpoints,
      "region" ∈ (get_endpoint_params e wow_game_data.pattern_templates).1 ∧
      (get_endpoint_params e wow_game_data.pattern_templates).1 ≠ []) ∧
    (wow_game_data.endpoints.map (fun e => e.method_name)).Nodup :=
  loaded_configs_region_and_unique_method_names wow_game_data (by decide)

/-- C3: for every generated operation, if any resolved required parameter
other than `region`/`locale` is absent or empty at call time, the call
fails with `MissingParameterError` whose `required_params` lists every
required parameter name for the endpoint, and the error is raised before
any network request is issued: the network attempt count of the outcome
is zero. -/
theorem missing_parameter_fails_before_network
    (required : List String) (args : List (String × String))
    (responses : Nat → HttpResponse) (m : Nat) (p : String)
    (hp : p ∈ required) (hreg : p ≠ "region") (hloc : p ≠ "locale")
    (hmiss : args.lookup p = none ∨ args.lookup p = some "") :
    operation_call required args responses m =
      (.err (.missingParameter required), 0) := by
  have hpmem : p ∈ missing_params required args := by
    refine List.mem_filter.2 ⟨hp, ?_⟩
    rcases hmiss with h | h <;>
      simp [h, bne_iff_ne, hreg, hloc]
  have hval : validate_params required args = some (.missingParameter required) := by
    unfold validate_params
    rw [if_neg]
    simp only [List.isEmpty_eq_true]
    exact List.ne_nil_of_mem hpmem
  unfold operation_call
  rw [hval]

/-- Witness for C3: `get_achievement`'s required parameters with
`achievement_id` omitted; the backend would answer 200 but is never
reached. -/
theorem missing_parameter_fails_before_network_witness :
    operation_call ["region", "locale", "achievement_id"]
      [("region", "us"), ("locale", "en_US")]
      (fun _ => { status := 200, body := "achievement" }) 3 =
      (.err (.missingParameter ["region", "locale", "achievement_id"]), 0) :=
  missing_parameter_fails_before_network _ _ _ _ "achievement_id"
    (by decide) (by decide) (by decide) (Or.inl (by decide))

/-- When the executor runs with the refresh already forced, no further
refresh is ever counted. -/
theorem execGo_refreshed_no_refresh (responses : Nat → HttpResponse) :
    ∀ n a, (execGo responses a true n).refreshes = 0 := by
  intro n
  induction n with
  | zero =>
    intro a
    unfold execGo
    split_ifs <;> first
      | rfl
      | simp_all
  | succ n ih =>
    intro a
    unfold execGo
    split_ifs <;> first
      | rfl
      | simp_all

/-- C6: for every executed request, a 401 response triggers exactly one
forced token refresh, and if the retried call also answers 401 the
executor surfaces `TokenError` after exactly two attempts — it never
makes a third attempt. -/
theorem unauthorized_triggers_single_refresh_retry
    (responses : Nat → HttpResponse) (m : Nat)
    (h0 : (responses 0).status = 401) :
    (execute responses m).refreshes = 1 ∧
    ((responses 1).status = 401 →
      execute responses m = ⟨.err .tokenError, 2, 1⟩) := by
  have hstep : execute responses m = bump_refresh (execGo responses 1 true m) := by
    conv_lhs => unfold execute execGo
    rw [h0]
    norm_num
  constructor
  · rw [hstep]
    simp [bump_refresh, execGo_refreshed_no_refresh]
  · intro h1
    have hinner : execGo responses 1 true m = ⟨.err .tokenError, 2, 0⟩ := by
      unfold execGo
      rw [h1]
      norm_num
    rw [hstep, hinner]
    rfl

/-- A backend that answers 401 to every attempt. -/
def always_unauthorized : Nat → HttpResponse := fun _ => { status := 401 }

/-- Witness for C6: against a backend that always answers 401, the
executor performs one refresh, two attempts, and surfaces `TokenError`. -/
theorem unauthorized_triggers_single_refresh_retry_witness :
    (execute always_unauthorized 5).refreshes = 1 ∧
    ((always_unauthorized 1).status = 401 →
      execute always_unauthorized 5 = ⟨.err .tokenError, 2, 1⟩) :=
  unauthorized_triggers_single_refresh_retry always_unauthorized 5 rfl

/-- C7: for every executed request, a 429 response surfaces
`RateLimitError` carrying exactly the response's retry-after header value
(including when that header is present), after a single attempt — the
executor performs no automatic retry of a rate-limited request and no
token refresh. -/
theorem rate_limit_surfaces_error_without_retry
    (responses : Nat → HttpResponse) (m : Nat)
    (h0 : (responses 0).status = 429) :
    execute responses m =
      ⟨.err (.rateLimitError (responses 0).retry_after), 1, 0⟩ := by
  unfold execute
  unfold execGo
  rw [h0]
  norm_num

/-- A backend that always answers 429 with a retry-after header of 60
seconds. -/
def always_rate_limited : Nat → HttpResponse :=
  fun _ => { status := 429, retry_after := some 60 }

/-- Witness for C7: a 429 with `retry-after: 60` surfaces
`RateLimitError (some 60)` after one attempt. -/
theorem rate_limit_surfaces_error_without_retry_witness :
    execute always_rate_limited 5 =
      ⟨.err (.rateLimitError (always_rate_limited 0).retry_after), 1, 0⟩ :=
  rate_limit_surfaces_error_without_retry always_rate_limited 5 rfl

/-- C9: for every operation (its resolved required parameters), every
argument assignment and every backend state, the sync variant and the
async variant produce identical results: the same validation error on
invalid input, and the same classified outcome and attempt count
otherwise. -/
theorem sync_async_call_equivalence
    (required : List String) (args : List (String × String))
    (responses : Nat → HttpResponse) (m : Nat) :
    (operation_call_async required args responses m).run =
      operation_call required args responses m := by
  unfold operation_call operation_call_async
  cases h : validate_params required args <;> simp [AsyncComp.run]

/-- A token-manager step never changes the number of callers. -/
theorem tm_step_length (s : TMSys) (i : Nat) :
    (tm_step s i).callers.length = s.callers.length := by
  unfold tm_step
  cases h : s.callers[i]? with
  | none => rfl
  | some ph =>
    cases ph <;>
      first
        | rfl
        | (split_ifs <;> simp [deliver, List.length_set])

/-- A token-manager run never changes the number of callers. -/
theorem tm_run_length (sched : List Nat) (s : TMSys) :
    (tm_run s sched).callers.length = s.callers.length := by
  induction sched generalizing s with
  | nil => rfl
  | cons i rest ih =>
    simp only [tm_run]
    rw [ih, tm_step_length]

/-- A token-manager step never changes the server's answer. -/
theorem tm_step_server (s : TMSys) (i : Nat) :
    (tm_step s i).server = s.server := by
  unfold tm_step
  cases h : s.callers[i]? with
  | none => rfl
  | some ph =>
    cases ph <;>
      first
        | rfl
        | (split_ifs <;> rfl)

/-- A token-manager run never changes the server's answer. -/
theorem tm_run_server (sched : List Nat) (s : TMSys) :
    (tm_run s sched).server = s.server := by
  induction sched generalizing s with
  | nil => rfl
  | cons i rest ih =>
    simp only [tm_run]
    rw [ih, tm_step_server]

/-- Running an appended schedule runs the two parts in sequence. -/
theorem tm_run_append (s : TMSys) (s₁ s₂ : List Nat) :
    tm_run s (s₁ ++ s₂) = tm_run (tm_run s s₁) s₂ := by
  induction s₁ generalizing s with
  | nil => rfl
  | cons i rest ih =>
    simp only [List.cons_append, tm_run]
    exact ih (tm_step s i)

/-- `cache_valid` depends only on the clock, the margin and the cached
entry. -/
theorem cache_valid_fields (s t : TMSys) (h1 : s.now = t.now)
    (h2 : s.safety_margin = t.safety_margin) (h3 : s.cache = t.cache) :
    cache_valid s = cache_valid t := by
  unfold cache_valid
  rw [h1, h2, h3]

/-- Invariant of the cache-hit scenario: with a valid cached token, a run
changes nothing but caller phases, every finished caller got the cached
token, and no network call was made. -/
structure HitInv (init s : TMSys) : Prop where
  now_eq : s.now = init.now
  margin_eq : s.safety_margin = init.safety_margin
  cache_eq : s.cache = init.cache
  inflight_eq : s.inflight = init.inflight
  net_eq : s.network_calls = init.network_calls
  phases : ∀ (j : Nat) (ph : CallerPhase), s.callers[j]? = some ph →
    ph = CallerPhase.start ∨ ph = CallerPhase.done (.token (cached_token init))

theorem hit_inv_step (init s : TMSys) (i : Nat)
    (hv : cache_valid init = true) (h : HitInv init s) :
    HitInv init (tm_step s i) := by
  have hvs : cache_valid s = true := by
    rw [cache_valid_fields s init h.now_eq h.margin_eq h.cache_eq, hv]
  have hct : cached_token s = cached_token init := by
    unfold cached_token
    rw [h.cache_eq]
  cases hcall : s.callers[i]? with
  | none =>
    have hstep : tm_step s i = s := by
      unfold tm_step
      rw [hcall]
    rw [hstep]
    exact h
  | some ph =>
    obtain ⟨hlt, -⟩ := List.getElem?_eq_some.mp hcall
    rcases h.phases i ph hcall with hph | hph
    · subst hph
      have hstep : tm_step s i =
          { s with callers :=
              s.callers.set i (.done (.token (cached_token s))) } := by
        unfold tm_step
        rw [hcall]
        simp [hvs]
      rw [hstep]
      refine ⟨h.now_eq, h.margin_eq, h.cache_eq, h.inflight_eq, h.net_eq, ?_⟩
      intro j ph' hj
      by_cases hji : j = i
      · subst hji
        rw [List.getElem?_set_eq_of_lt _ hlt] at hj
        injection hj with hj'
        right
        rw [← hj', hct]
      · rw [List.getElem?_set_ne (Ne.symm hji)] at hj
        exact h.phases j ph' hj
    · subst hph
      have hstep : tm_step s i = s := by
        unfold tm_step
        rw [hcall]
      rw [hstep]
      exact h

theorem hit_inv_run (init : TMSys) (sched : List Nat)
    (hv : cache_valid init = true) :
    ∀ s, HitInv init s → HitInv init (tm_run s sched) := by
  induction sched with
  | nil => intro s h; exact h
  | cons i rest ih =>
    intro s h
    simp only [tm_run]
    exact ih _ (hit_inv_step init s i hv h)

/-- Invariant coupling the single-flight slot to the caller phases: a
fetching caller implies a refresh is marked in flight and is unique, an
in-flight refresh has its fetching leader, a parked waiter implies a
refresh is in flight, and as long as no caller has finished, the number
of network round trips is one while a flight is in progress and zero
otherwise. -/
structure SingleFlightInv (s : TMSys) : Prop where
  fetch_inflight : ∀ j : Nat,
    s.callers[j]? = some CallerPhase.fetching → s.inflight = true
  inflight_fetch : s.inflight = true →
    ∃ j : Nat, s.callers[j]? = some CallerPhase.fetching
  waiting_inflight : ∀ j : Nat,
    s.callers[j]? = some CallerPhase.waiting → s.inflight = true
  fetch_unique : ∀ j k : Nat, s.callers[j]? = some CallerPhase.fetching →
    s.callers[k]? = some CallerPhase.fetching → j = k
  undone_net : (∀ (j : Nat) (r : CallerResult),
      s.callers[j]? ≠ some (CallerPhase.done r)) →
    s.network_calls = if s.inflight = true then 1 else 0

theorem single_flight_inv_step (s : TMSys) (i : Nat)
    (h : SingleFlightInv s) : SingleFlightInv (tm_step s i) := by
  cases hcall : s.callers[i]? with
  | none =>
    have hstep : tm_step s i = s := by
      unfold tm_step
      rw [hcall]
    rw [hstep]
    exact h
  | some ph =>
    obtain ⟨hlt, -⟩ := List.getElem?_eq_some.mp hcall
    have hset_ne : ∀ (l : List CallerPhase) (a : CallerPhase) (j : Nat), j ≠ i →
        (l.set i a)[j]? = l[j]? := by
      intro l a j hj
      exact List.getElem?_set_ne (Ne.symm hj)
    have hset_eq : ∀ a : CallerPhase, (s.callers.set i a)[i]? = some a :=
      fun a => List.getElem?_set_eq_of_lt a hlt
    cases ph with
    | waiting =>
      have hstep : tm_step s i = s := by
        unfold tm_step
        rw [hcall]
      rw [hstep]
      exact h
    | done r =>
      have hstep : tm_step s i = s := by
        unfold tm_step
        rw [hcall]
      rw [hstep]
      exact h
    | start =>
      by_cases hvs : cache_valid s = true
      · -- cache hit: this caller finishes with the cached token
        have hstep : tm_step s i =
            { s with callers :=
                s.callers.set i (.done (.token (cached_token s))) } := by
          unfold tm_step
          rw [hcall]
          simp [hvs]
        rw [hstep]
        refine ⟨?_, ?_, ?_, ?_, ?_⟩
        · intro j hj
          by_cases hji : j = i
          · subst hji
            rw [hset_eq] at hj
            simp at hj
          · rw [hset_ne _ _ j hji] at hj
            exact h.fetch_inflight j hj
        · intro hif
          obtain ⟨j, hj⟩ := h.inflight_fetch hif
          have hji : j ≠ i := by
            intro hji
            subst hji
            rw [hcall] at hj
            simp at hj
          exact ⟨j, by rw [hset_ne _ _ j hji]; exact hj⟩
        · intro j hj
          by_cases hji : j = i
          · subst hji
            rw [hset_eq] at hj
            simp at hj
          · rw [hset_ne _ _ j hji] at hj
            exact h.waiting_inflight j hj
        · intro j k hj hk
          by_cases hji : j = i
          · subst hji
            rw [hset_eq] at hj
            simp at hj
          · by_cases hki : k = i
            · subst hki
              rw [hset_eq] at hk
              simp at hk
            · rw [hset_ne _ _ j hji] at hj
              rw [hset_ne _ _ k hki] at hk
              exact h.fetch_unique j k hj hk
        · intro hall
          exact absurd (hset_eq _) (hall i _)
      · have hvs' : cache_valid s = false := by
          revert hvs
          cases cache_valid s <;> simp
        by_cases hif : s.inflight = true
        · -- a refresh is in flight: park on its shared future
          have hstep : tm_step s i =
              { s with callers := s.callers.set i .waiting } := by
            unfold tm_step
            rw [hcall]
            simp [hvs', hif]
          rw [hstep]
          refine ⟨?_, ?_, ?_, ?_, ?_⟩
          · intro j hj
            by_cases hji : j = i
            · subst hji
              rw [hset_eq] at hj
              simp at hj
            · rw [hset_ne _ _ j hji] at hj
              exact h.fetch_inflight j hj
          · intro hif'
            obtain ⟨j, hj⟩ := h.inflight_fetch hif'
            have hji : j ≠ i := by
              intro hji
              subst hji
              rw [hcall] at hj
              simp at hj
            exact ⟨j, by rw [hset_ne _ _ j hji]; exact hj⟩
          · intro j hj
            exact hif
          · intro j k hj hk
            by_cases hji : j = i
            · subst hji
              rw [hset_eq] at hj
              simp at hj
            · by_cases hki : k = i
              · subst hki
                rw [hset_eq] at hk
                simp at hk
              · rw [hset_ne _ _ j hji] at hj
                rw [hset_ne _ _ k hki] at hk
                exact h.fetch_unique j k hj hk
          · intro hall
            have hold : ∀ (j : Nat) (r : CallerResult),
                s.callers[j]? ≠ some (CallerPhase.done r) := by
              intro j r hj
              by_cases hji : j = i
              · subst hji
                rw [hcall] at hj
                simp at hj
              · exact hall j r (by rw [hset_ne _ _ j hji]; exact hj)
            exact h.undone_net hold
        · -- claim the single-flight slot and issue the one request
          have hif' : s.inflight = false := by
            revert hif
            cases s.inflight <;> simp
          have hnofetch : ∀ j : Nat,
              s.callers[j]? ≠ some CallerPhase.fetching := by
            intro j hj
            rw [h.fetch_inflight j hj] at hif'
            exact absurd hif' (by decide)
          have hstep : tm_step s i =
              { s with inflight := true,
                       network_calls := s.network_calls + 1,
                       callers := s.callers.set i .fetching } := by
            unfold tm_step
            rw [hcall]
            simp [hvs', hif']
          rw [hstep]
          refine ⟨?_, ?_, ?_, ?_, ?_⟩
          · intro j hj
            rfl
          · intro _
            exact ⟨i, hset_eq _⟩
          · intro j hj
            rfl
          · intro j k hj hk
            by_cases hji : j = i
            · by_cases hki : k = i
              · rw [hji, hki]
              · rw [hset_ne _ _ k hki] at hk
                exact absurd hk (hnofetch k)
            · rw [hset_ne _ _ j hji] at hj
              exact absurd hj (hnofetch j)
          · intro hall
            have hold : ∀ (j : Nat) (r : CallerResult),
                s.callers[j]? ≠ some (CallerPhase.done r) := by
              intro j r hj
              by_cases hji : j = i
              · subst hji
                rw [hcall] at hj
                simp at hj
              · exact hall j r (by rw [hset_ne _ _ j hji]; exact hj)
            have h0 := h.undone_net hold
            rw [hif'] at h0
            simp at h0
            simp [h0]
    | fetching =>
      -- the flight resolves: deliver the one result to every sharer
      have hstep : tm_step s i =
          { s with
            cache := match s.server with
                     | .token t => some t
                     | .failure _ => s.cache,
            inflight := false,
            callers := (deliver s.server s.callers).set i
              (.done (outcome_result s.server)) } := by
        unfold tm_step
        rw [hcall]
      rw [hstep]
      have hdlen : i < (deliver s.server s.callers).length := by
        simpa [deliver] using hlt
      have hdget : ∀ j : Nat, (deliver s.server s.callers)[j]? =
          Option.map (wake s.server) s.callers[j]? := by
        intro j
        simp [deliver]
      have hdset_eq : ((deliver s.server s.callers).set i
          (.done (outcome_result s.server)))[i]? =
            some (.done (outcome_result s.server)) :=
        List.getElem?_set_eq_of_lt _ hdlen
      have hnof : ∀ j : Nat,
          ((deliver s.server s.callers).set i
            (.done (outcome_result s.server)))[j]? ≠
              some CallerPhase.fetching := by
        intro j hj
        by_cases hji : j = i
        · subst hji
          rw [hdset_eq] at hj
          simp at hj
        · rw [List.getElem?_set_ne (Ne.symm hji), hdget] at hj
          cases hget : s.callers[j]? with
          | none =>
            rw [hget] at hj
            simp at hj
          | some ph' =>
            rw [hget] at hj
            cases ph' with
            | start => simp [wake] at hj
            | waiting => simp [wake] at hj
            | done r => simp [wake] at hj
            | fetching => exact hji (h.fetch_unique j i hget hcall)
      have hnow : ∀ j : Nat,
          ((deliver s.server s.callers).set i
            (.done (outcome_result s.server)))[j]? ≠
              some CallerPhase.waiting := by
        intro j hj
        by_cases hji : j = i
        · subst hji
          rw [hdset_eq] at hj
          simp at hj
        · rw [List.getElem?_set_ne (Ne.symm hji), hdget] at hj
          cases hget : s.callers[j]? with
          | none =>
            rw [hget] at hj
            simp at hj
          | some ph' =>
            rw [hget] at hj
            cases ph' with
            | start => simp [wake] at hj
            | waiting => simp [wake] at hj
            | done r => simp [wake] at hj
            | fetching => simp [wake] at hj
      refine ⟨?_, ?_, ?_, ?_, ?_⟩
      · intro j hj
        exact absurd hj (hnof j)
      · intro hif'
        simp at hif'
      · intro j hj
        exact absurd hj (hnow j)
      · intro j k hj hk
        exact absurd hj (hnof j)
      · intro hall
        exact absurd hdset_eq (hall i _)

theorem single_flight_inv_run (sched : List Nat) :
    ∀ s, SingleFlightInv s → SingleFlightInv (tm_run s sched) := by
  induction sched with
  | nil => intro s h; exact h
  | cons i rest ih =>
    intro s h
    simp only [tm_run]
    exact ih _ (single_flight_inv_step s i h)

/-- Invariant of the drain phase: once every caller has joined the single
flight (parked on it or leading it), no caller is ever at `start` again,
the network-call count is frozen, and every finished caller holds exactly
the flight's result. -/
structure DrainInv (b s : TMSys) : Prop where
  server_eq : s.server = b.server
  net_eq : s.network_calls = b.network_calls
  no_start : ∀ j : Nat, s.callers[j]? ≠ some CallerPhase.start
  done_val : ∀ (j : Nat) (r : CallerResult),
    s.callers[j]? = some (CallerPhase.done r) → r = outcome_result b.server

theorem drain_inv_step (b s : TMSys) (i : Nat)
    (h : DrainInv b s) : DrainInv b (tm_step s i) := by
  cases hcall : s.callers[i]? with
  | none =>
    have hstep : tm_step s i = s := by
      unfold tm_step
      rw [hcall]
    rw [hstep]
    exact h
  | some ph =>
    obtain ⟨hlt, -⟩ := List.getElem?_eq_some.mp hcall
    cases ph with
    | start => exact absurd hcall (h.no_start i)
    | waiting =>
      have hstep : tm_step s i = s := by
        unfold tm_step
        rw [hcall]
      rw [hstep]
      exact h
    | done r =>
      have hstep : tm_step s i = s := by
        unfold tm_step
        rw [hcall]
      rw [hstep]
      exact h
    | fetching =>
      have hstep : tm_step s i =
          { s with
            cache := match s.server with
                     | .token t => some t
                     | .failure _ => s.cache,
            inflight := false,
            callers := (deliver s.server s.callers).set i
              (.done (outcome_result s.server)) } := by
        unfold tm_step
        rw [hcall]
      rw [hstep]
      have hdlen : i < (deliver s.server s.callers).length := by
        simpa [deliver] using hlt
      have hdget : ∀ j : Nat, (deliver s.server s.callers)[j]? =
          Option.map (wake s.server) s.callers[j]? := by
        intro j
        simp [deliver]
      refine ⟨h.server_eq, h.net_eq, ?_, ?_⟩
      · intro j hj
        by_cases hji : j = i
        · subst hji
          rw [List.getElem?_set_eq_of_lt _ hdlen] at hj
          simp at hj
        · rw [List.getElem?_set_ne (Ne.symm hji), hdget] at hj
          cases hget : s.callers[j]? with
          | none =>
            rw [hget] at hj
            simp at hj
          | some ph' =>
            rw [hget] at hj
            cases ph' with
            | start => exact h.no_start j hget
            | waiting => simp [wake] at hj
            | done r => simp [wake] at hj
            | fetching => simp [wake] at hj
      · intro j r hj
        by_cases hji : j = i
        · subst hji
          rw [List.getElem?_set_eq_of_lt _ hdlen] at hj
          injection hj with hj'
          injection hj' with hj''
          rw [← hj'', h.server_eq]
        · rw [List.getElem?_set_ne (Ne.symm hji), hdget] at hj
          cases hget : s.callers[j]? with
          | none =>
            rw [hget] at hj
            simp at hj
          | some ph' =>
            rw [hget] at hj
            cases ph' with
            | start => exact absurd hget (h.no_start j)
            | waiting =>
              simp [wake] at hj
              subst hj
              rw [h.server_eq]
            | done r' =>
              simp [wake] at hj
              subst hj
              exact h.done_val j _ hget
            | fetching => simp [wake] at hj

theorem drain_inv_run (sched : List Nat) :
    ∀ b s, DrainInv b s → DrainInv b (tm_run s sched) := by
  induction sched with
  | nil => intro b s h; exact h
  | cons i rest ih =>
    intro b s h
    simp only [tm_run]
    exact ih b _ (drain_inv_step b s i h)

/-- C5: for every cache key, (a) with a cached token still valid at the
safety margin, any schedule of concurrent callers runs without any
token-endpoint network request and every finished caller got the cached
token; (b) with a stale cached token, once the N concurrent callers have
all joined the refresh (each is parked on, or leads, the in-flight
request — the formalization of requesting concurrently), exactly one
token-refresh network round trip ever occurs, and when all callers have
finished, every one of them holds that single refresh's result — its
token on success, its failure detail on failure: the single-flight
guarantee, with no independent retries. -/
theorem token_cache_hit_and_single_flight (init : TMSys) (sched : List Nat)
    (hstart : ∀ ph ∈ init.callers, ph = CallerPhase.start)
    (hinflight : init.inflight = false)
    (hnet : init.network_calls = 0)
    (hne : init.callers ≠ []) :
    (cache_valid init = true →
      (tm_run init sched).network_calls = 0 ∧
      ∀ ph ∈ (tm_run init sched).callers,
        ph = CallerPhase.start ∨
          ph = CallerPhase.done (.token (cached_token init))) ∧
    (cache_valid init = false →
      ∀ s₁ s₂ : List Nat, sched = s₁ ++ s₂ →
      (∀ ph ∈ (tm_run init s₁).callers,
        ph = CallerPhase.waiting ∨ ph = CallerPhase.fetching) →
      (tm_run init sched).network_calls = 1 ∧
      ((∀ ph ∈ (tm_run init sched).callers, ph.isDone = true) →
        ∀ ph ∈ (tm_run init sched).callers,
          ph = CallerPhase.done (outcome_result init.server))) := by
  constructor
  · intro hv
    have hinv0 : HitInv init init :=
      ⟨rfl, rfl, rfl, rfl, rfl, fun j ph hj =>
        Or.inl (hstart ph (List.mem_iff_getElem?.mpr ⟨j, hj⟩))⟩
    have hinv := hit_inv_run init sched hv init hinv0
    refine ⟨by rw [hinv.net_eq, hnet], ?_⟩
    intro ph hmem
    obtain ⟨j, hj⟩ := List.mem_iff_getElem?.mp hmem
    exact hinv.phases j ph hj
  · intro hstale s₁ s₂ hsplit hjoin
    have hinv0 : SingleFlightInv init := by
      refine ⟨?_, ?_, ?_, ?_, ?_⟩
      · intro j hj
        have := hstart _ (List.mem_iff_getElem?.mpr ⟨j, hj⟩)
        simp at this
      · intro hx
        rw [hinflight] at hx
        exact absurd hx (by decide)
      · intro j hj
        have := hstart _ (List.mem_iff_getElem?.mpr ⟨j, hj⟩)
        simp at this
      · intro j k hj hk
        have := hstart _ (List.mem_iff_getElem?.mpr ⟨j, hj⟩)
        simp at this
      · intro _
        rw [hnet, hinflight]
        simp
    have hbinv := single_flight_inv_run s₁ init hinv0
    have hbne : (tm_run init s₁).callers ≠ [] := by
      rw [← List.length_pos, tm_run_length]
      exact List.length_pos.mpr hne
    have hbnodone : ∀ (j : Nat) (r : CallerResult),
        (tm_run init s₁).callers[j]? ≠ some (CallerPhase.done r) := by
      intro j r hj
      rcases hjoin _ (List.mem_iff_getElem?.mpr ⟨j, hj⟩) with hw | hw <;>
        simp at hw
    have hbinflight : (tm_run init s₁).inflight = true := by
      obtain ⟨ph0, hmem0⟩ := List.exists_mem_of_ne_nil _ hbne
      obtain ⟨j0, hj0⟩ := List.mem_iff_getElem?.mp hmem0
      rcases hjoin ph0 hmem0 with hw | hw
      · subst hw
        exact hbinv.waiting_inflight j0 hj0
      · subst hw
        exact hbinv.fetch_inflight j0 hj0
    have hbnet : (tm_run init s₁).network_calls = 1 := by
      rw [hbinv.undone_net hbnodone, hbinflight]
      simp
    have hbdrain : DrainInv (tm_run init s₁) (tm_run init s₁) := by
      refine ⟨rfl, rfl, ?_, ?_⟩
      · intro j hj
        rcases hjoin _ (List.mem_iff_getElem?.mpr ⟨j, hj⟩) with hw | hw <;>
          simp at hw
      · intro j r hj
        exact absurd hj (hbnodone j r)
    have hfinal : tm_run init sched = tm_run (tm_run init s₁) s₂ := by
      rw [hsplit, tm_run_append]
    have hdinv : DrainInv (tm_run init s₁) (tm_run init sched) := by
      rw [hfinal]
      exact drain_inv_run s₂ _ _ hbdrain
    constructor
    · rw [hdinv.net_eq, hbnet]
    · intro hall ph hmem
      obtain ⟨j, hj⟩ := List.mem_iff_getElem?.mp hmem
      have hd := hall ph hmem
      cases ph with
      | done r =>
        rw [hdinv.done_val j r hj, tm_run_server]
      | start => simp [CallerPhase.isDone] at hd
      | waiting => simp [CallerPhase.isDone] at hd
      | fetching => simp [CallerPhase.isDone] at hd

/-- A token-manager state with three concurrent callers, a stale cached
token, and an authorization server that fails the refresh. -/
def tm_demo : TMSys :=
  { now := 100, safety_margin := 30,
    cache := some { access_token := "stale_token", expires_at := 110 },
    inflight := false, network_calls := 0,
    server := .failure "invalid_client",
    callers := [.start, .start, .start] }

/-- The joining prefix of the demo schedule: every caller enters
`get_token` before the flight resolves. -/
def tm_demo_join : List Nat := [0, 1, 2]

/-- The full demo schedule: after all three callers join, the leader's
round trip resolves, delivering the shared outcome. -/
def tm_demo_sched : List Nat := tm_demo_join ++ [0]

/-- Witness for C5: three concurrent callers against a stale cache with a
failing authorization server, under an interleaving schedule whose
prefix joins all three callers. -/
theorem token_cache_hit_and_single_flight_witness :
    (cache_valid tm_demo = true →
      (tm_run tm_demo tm_demo_sched).network_calls = 0 ∧
      ∀ ph ∈ (tm_run tm_demo tm_demo_sched).callers,
        ph = CallerPhase.start ∨
          ph = CallerPhase.done (.token (cached_token tm_demo))) ∧
    (cache_valid tm_demo = false →
      ∀ s₁ s₂ : List Nat, tm_demo_sched = s₁ ++ s₂ →
      (∀ ph ∈ (tm_run tm_demo s₁).callers,
        ph = CallerPhase.waiting ∨ ph = CallerPhase.fetching) →
      (tm_run tm_demo tm_demo_sched).network_calls = 1 ∧
      ((∀ ph ∈ (tm_run tm_demo tm_demo_sched).callers, ph.isDone = true) →
        ∀ ph ∈ (tm_run tm_demo tm_demo_sched).callers,
          ph = CallerPhase.done (outcome_result tm_demo.server))) :=
  token_cache_hit_and_single_flight tm_demo tm_demo_sched (by decide) rfl rfl
    (by decide)

example :
    (∀ ph ∈ (tm_run tm_demo tm_demo_join).callers,
      ph = CallerPhase.waiting ∨ ph = CallerPhase.fetching) ∧
    (tm_run tm_demo tm_demo_sched).network_calls = 1 ∧
    (tm_run tm_demo tm_demo_sched).callers =
      [.done (.failed "invalid_client"), .done (.failed "invalid_client"),
       .done (.failed "invalid_client")] := by
  decide

/-- The same three callers with a server that issues a token. -/
def tm_demo_success : TMSys :=
  { tm_demo with
    server := .token { access_token := "fresh_token", expires_at := 1000 } }

example :
    (tm_run tm_demo_success tm_demo_sched).network_calls = 1 ∧
    (tm_run tm_demo_success tm_demo_sched).callers =
      [.done (.token "fresh_token"), .done (.token "fresh_token"),
       .done (.token "fresh_token")] := by
  decide

end Blizzardapi3
